import Mathlib

/-!
Shallow embedding of the Virtual-Network-Simulation repository
(src/virtual_node.py, src/virtual_network.py, src/node3.py).

Python dictionaries with insertion-order semantics are embedded as
association lists over `String` keys; the helper operations below update
the first occurrence of a key in place and append fresh keys at the end,
exactly as a Python dict behaves.  Byte strings are embedded as
`List Nat` (one `Nat` per byte value).  Each distinct `return` site of a
Python method is tagged by one constructor of the `Res` type, so the
result messages of the source are preserved up to renaming.
-/

/-- Lookup in an association list: first binding of the key, like a
Python dict read. -/
def lookupA {α : Type} : List (String × α) → String → Option α
  | [], _ => none
  | (g, w) :: t, f => if g = f then some w else lookupA t f

/-- Write to an association list: replace the value of the first binding
of the key, or append a fresh binding at the end, like a Python dict
write (insertion order preserved). -/
def setA {α : Type} : List (String × α) → String → α → List (String × α)
  | [], f, v => [(f, v)]
  | (g, w) :: t, f, v => if g = f then (f, v) :: t else (g, w) :: setA t f v

/-- Membership test, like the Python expression `key in dict`. -/
def containsA {α : Type} (d : List (String × α)) (f : String) : Bool :=
  (lookupA d f).isSome

/-- A virtual disk: the `virtual_disk` dictionary mapping filename to
size in bytes (sizes are Python ints, hence `Int`). -/
abbrev Disk := List (String × Int)

/-- `sum(self.virtual_disk.values())` as in `_check_storage`. -/
def diskUsed (d : Disk) : Int := (d.map Prod.snd).sum

/-- Result tag for every distinct return site of the node operations.
Each constructor stands for one message produced by the source
(for instance `capacity` stands for the "Not enough storage" messages and
`notRunning` for the "VM is not running" messages). -/
inductive Res where
  | notRunning
  | notAnInt
  | negSize
  | capacity
  | created
  | updatedTimestamp
  | truncated
  | fileNotFound
  | emptyDir
  | listing (d : Disk)
  | varSet
  | varValue (v : Int)
  | varNotFound
  | addResult (v : Int)
  | varsNotFound
  | usageAdd
  | noInstruction
  | unknownInstruction
  | alreadyRunning
  | started
  | alreadyStopped
  | stopped
  | targetNotFound
  | selfTarget
  | duplicate
  | sent
deriving DecidableEq

/-- Node state for the `VirtualNode` class of src/virtual_node.py.
The `metadata` field holds the persisted contents of
`disk_metadata.json`; `_save_disk` copies `virtual_disk` into it. -/
structure VirtualNode where
  name : String
  ip_address : String
  total_storage : Int
  virtual_disk : Disk
  memory : List (String × Int)
  is_running : Bool
  metadata : Disk
deriving DecidableEq

/-- `VirtualNode._check_storage`: used + size <= total_storage. -/
def VirtualNode.check_storage (n : VirtualNode) (size : Int) : Bool :=
  decide (diskUsed n.virtual_disk + size ≤ n.total_storage)

/-- `VirtualNode.touch` (src/virtual_node.py lines 94-115).  The `sizeArg`
argument is `none` when Python's `int(size)` raises `ValueError`.  Note
that for an absent file the admission check is run on
`size * 1024 * 1024` while the created entry records `size` bytes,
exactly as in the source.  On success `_save_disk` persists the disk. -/
def VirtualNode.touch (n : VirtualNode) (filename : String) (sizeArg : Option Int) :
    Res × VirtualNode :=
  if n.is_running = false then (.notRunning, n)
  else
    match sizeArg with
    | none => (.notAnInt, n)
    | some size =>
      if size < 0 then (.negSize, n)
      else if containsA n.virtual_disk filename = false then
        if n.check_storage (size * (1024 * 1024)) = false then (.capacity, n)
        else
          let d := setA n.virtual_disk filename size
          (.created, { n with virtual_disk := d, metadata := d })
      else (.updatedTimestamp, n)

/-- `VirtualNode.trunc` (src/virtual_node.py lines 117-137): requires the
file to exist, admission-checks the delta `size - current`, rewrites the
entry and persists. -/
def VirtualNode.trunc (n : VirtualNode) (filename : String) (sizeArg : Option Int) :
    Res × VirtualNode :=
  if n.is_running = false then (.notRunning, n)
  else
    match sizeArg with
    | none => (.notAnInt, n)
    | some size =>
      if size < 0 then (.negSize, n)
      else
        match lookupA n.virtual_disk filename with
        | some old =>
          if n.check_storage (size - old) = false then (.capacity, n)
          else
            let d := setA n.virtual_disk filename size
            (.truncated, { n with virtual_disk := d, metadata := d })
        | none => (.fileNotFound, n)

/-- `VirtualNode.ls` (read-only). -/
def VirtualNode.ls (n : VirtualNode) : Res :=
  if n.is_running = false then .notRunning
  else if n.virtual_disk = [] then .emptyDir
  else .listing n.virtual_disk

/-- `VirtualNode.set_var`; `valueArg` is `none` when `int(value)` raises. -/
def VirtualNode.set_var (n : VirtualNode) (var_name : String) (valueArg : Option Int) :
    Res × VirtualNode :=
  if n.is_running = false then (.notRunning, n)
  else
    match valueArg with
    | none => (.notAnInt, n)
    | some v => (.varSet, { n with memory := setA n.memory var_name v })

/-- `VirtualNode.get_var` (read-only). -/
def VirtualNode.get_var (n : VirtualNode) (var_name : String) : Res :=
  if n.is_running = false then .notRunning
  else
    match lookupA n.memory var_name with
    | some v => .varValue v
    | none => .varNotFound

/-- Python `instruction.strip().split()`: split on whitespace runs,
dropping empty tokens. -/
def tokenize (s : String) : List String :=
  (s.split Char.isWhitespace).filter fun t => t ≠ ""

/-- `VirtualNode.execute_instruction`: only the `add var1 var2` opcode is
defined; the result is stored into the reserved variable `result`. -/
def VirtualNode.execute_instruction (n : VirtualNode) (instruction : String) :
    Res × VirtualNode :=
  if n.is_running = false then (.notRunning, n)
  else
    match tokenize instruction with
    | [] => (.noInstruction, n)
    | cmd :: rest =>
      if cmd.toLower = "add" then
        match rest with
        | [var1, var2] =>
          match lookupA n.memory var1, lookupA n.memory var2 with
          | some v1, some v2 =>
            (.addResult (v1 + v2), { n with memory := setA n.memory "result" (v1 + v2) })
          | _, _ => (.varsNotFound, n)
        | _ => (.usageAdd, n)
      else (.unknownInstruction, n)

/-- `VirtualNode.start`. -/
def VirtualNode.start (n : VirtualNode) : Res × VirtualNode :=
  if n.is_running then (.alreadyRunning, n)
  else (.started, { n with is_running := true })

/-- `VirtualNode.stop`: persists the disk metadata and stops. -/
def VirtualNode.stop (n : VirtualNode) : Res × VirtualNode :=
  if n.is_running = false then (.alreadyStopped, n)
  else (.stopped, { n with is_running := false, metadata := n.virtual_disk })

/-- The static `ip_map` keys shared by the classes of
src/virtual_network.py and src/virtual_node.py. -/
def knownIPs : List String := ["192.168.1.1", "192.168.1.2", "192.168.1.3"]

/-- Used storage computed by `VirtualNetwork.check_target_storage` from a
directory listing of the target: sum of listed sizes excluding the
`disk_metadata.json` marker object. -/
def listedUsed (listing : List (String × Int)) : Int :=
  ((listing.filter fun pr => pr.1 ≠ "disk_metadata.json").map Prod.snd).sum

/-- Control flow of `VirtualNetwork.send_file` (src/virtual_network.py
lines 138-221) up to the choice of outcome.  The target directory state
observed over FTP is passed in as `listing` (name and size of every
object at the target, including the metadata marker); transport and
filesystem failures (the `except` branches) are not modelled, and the
chunk streaming performed on the success path is modelled separately by
`sentChunks` and `sentFrames` below.  The sender state is never
mutated by this method. -/
def send_file (filename source_ip target_ip : String) (virtual_disk : Disk)
    (listing : List (String × Int)) : Res :=
  if knownIPs.contains target_ip = false then .targetNotFound
  else if source_ip = target_ip then .selfTarget
  else if containsA virtual_disk filename = false then .fileNotFound
  else
    let size := (lookupA virtual_disk filename).getD 0
    if listedUsed listing + size ≤ 1024 * 1024 * 1024 then
      if listing.any (fun pr => pr.1 = filename) then .duplicate
      else .sent
    else .capacity

/-- `VirtualNode.send`: running guard, then delegate to
`VirtualNetwork.send_file`. -/
def VirtualNode.send (n : VirtualNode) (filename target_ip : String)
    (listing : List (String × Int)) : Res × VirtualNode :=
  if n.is_running = false then (.notRunning, n)
  else (send_file filename n.ip_address target_ip n.virtual_disk listing, n)

/-- The static `node_map` of the `VirtualNode3` class of src/node3.py. -/
def nodeMap : List (String × String) :=
  [("node1", "./assets/disk1.img"), ("node2", "./assets/disk2.img"),
   ("node3", "./assets/disk3.img")]

/-- Node state for the `VirtualNode3` class of src/node3.py.  Here the
disk image file at `disk_path` holds the serialized `virtual_disk`
itself; the `metadata` field mirrors its persisted contents. -/
structure VirtualNode3 where
  name : String
  total_storage : Int
  virtual_disk : Disk
  memory : List (String × Int)
  is_running : Bool
  metadata : Disk
deriving DecidableEq

/-- `VirtualNode3._check_storage`. -/
def VirtualNode3.check_storage (n : VirtualNode3) (size : Int) : Bool :=
  decide (diskUsed n.virtual_disk + size ≤ n.total_storage)

/-- `VirtualNode3._check_target_storage`: sums the sizes recorded in the
target's disk image (passed in as `targetDisk`) and compares against the
sender's `total_storage` constant, as in the source. -/
def VirtualNode3.check_target_storage (n : VirtualNode3) (targetDisk : Disk)
    (size : Int) : Bool :=
  decide (diskUsed targetDisk + size ≤ n.total_storage)

/-- `VirtualNode3.touch` (src/node3.py lines 117-134): same structure as
`VirtualNode.touch` but the admission check is run on `size` directly
and no backing byte buffer is written. -/
def VirtualNode3.touch (n : VirtualNode3) (filename : String) (sizeArg : Option Int) :
    Res × VirtualNode3 :=
  if n.is_running = false then (.notRunning, n)
  else
    match sizeArg with
    | none => (.notAnInt, n)
    | some size =>
      if size < 0 then (.negSize, n)
      else if containsA n.virtual_disk filename = false then
        if n.check_storage size = false then (.capacity, n)
        else
          let d := setA n.virtual_disk filename size
          (.created, { n with virtual_disk := d, metadata := d })
      else (.updatedTimestamp, n)

/-- `VirtualNode3.trunc` (src/node3.py lines 136-153). -/
def VirtualNode3.trunc (n : VirtualNode3) (filename : String) (sizeArg : Option Int) :
    Res × VirtualNode3 :=
  if n.is_running = false then (.notRunning, n)
  else
    match sizeArg with
    | none => (.notAnInt, n)
    | some size =>
      if size < 0 then (.negSize, n)
      else
        match lookupA n.virtual_disk filename with
        | some old =>
          if n.check_storage (size - old) = false then (.capacity, n)
          else
            let d := setA n.virtual_disk filename size
            (.truncated, { n with virtual_disk := d, metadata := d })
        | none => (.fileNotFound, n)

/-- `VirtualNode3.send` (src/node3.py lines 60-92).  The target's disk
image contents are passed in as `targetDisk` and the updated image is
returned; the I/O failure branches (`IOError`, `JSONDecodeError`) of the
source are not modelled, reads and writes succeed.  On the success path
the source appends the entry to the target image and then calls
`_save_disk` on the sender (persisting the sender's unchanged disk). -/
def VirtualNode3.send (n : VirtualNode3) (filename target_node : String)
    (targetDisk : Disk) : Res × VirtualNode3 × Disk :=
  if n.is_running = false then (.notRunning, n, targetDisk)
  else if containsA n.virtual_disk filename = false then (.fileNotFound, n, targetDisk)
  else if containsA nodeMap target_node = false then (.targetNotFound, n, targetDisk)
  else if target_node = n.name then (.selfTarget, n, targetDisk)
  else
    let size := (lookupA n.virtual_disk filename).getD 0
    if n.check_target_storage targetDisk size = false then (.capacity, n, targetDisk)
    else if containsA targetDisk filename then (.duplicate, n, targetDisk)
    else (.sent, { n with metadata := n.virtual_disk }, setA targetDisk filename size)

/-- `VirtualNode3.ls`. -/
def VirtualNode3.ls (n : VirtualNode3) : Res :=
  if n.is_running = false then .notRunning
  else if n.virtual_disk = [] then .emptyDir
  else .listing n.virtual_disk

/-- `VirtualNode3.set_var`. -/
def VirtualNode3.set_var (n : VirtualNode3) (var_name : String) (valueArg : Option Int) :
    Res × VirtualNode3 :=
  if n.is_running = false then (.notRunning, n)
  else
    match valueArg with
    | none => (.notAnInt, n)
    | some v => (.varSet, { n with memory := setA n.memory var_name v })

/-- `VirtualNode3.get_var`. -/
def VirtualNode3.get_var (n : VirtualNode3) (var_name : String) : Res :=
  if n.is_running = false then .notRunning
  else
    match lookupA n.memory var_name with
    | some v => .varValue v
    | none => .varNotFound

/-- `VirtualNode3.execute_instruction`. -/
def VirtualNode3.execute_instruction (n : VirtualNode3) (instruction : String) :
    Res × VirtualNode3 :=
  if n.is_running = false then (.notRunning, n)
  else
    match tokenize instruction with
    | [] => (.noInstruction, n)
    | cmd :: rest =>
      if cmd.toLower = "add" then
        match rest with
        | [var1, var2] =>
          match lookupA n.memory var1, lookupA n.memory var2 with
          | some v1, some v2 =>
            (.addResult (v1 + v2), { n with memory := setA n.memory "result" (v1 + v2) })
          | _, _ => (.varsNotFound, n)
        | _ => (.usageAdd, n)
      else (.unknownInstruction, n)

/-- ASCII bytes of the literal "CHUNK:" used by the wire format. -/
def chunkLit : List Nat := [67, 72, 85, 78, 75, 58]

/-- Decimal digit bytes of a natural number, with an explicit recursion
budget so that the definition is structural; `decBytes` below fixes a
budget large enough for every number a chunk header can carry. -/
def decBytesAux : Nat → Nat → List Nat
  | 0, _ => []
  | fuel + 1, n =>
    if n < 10 then [48 + n] else decBytesAux fuel (n / 10) ++ [48 + n % 10]

/-- Byte rendering of Python's `str(n)` for a natural number. -/
def decBytes (n : Nat) : List Nat := decBytesAux 24 n

/-- The sender's header construction (src/virtual_network.py lines
185-187): the bytes of "CHUNK:<count>:<size>\n" left-justified to the
fixed `header_size` of 16 bytes with NUL padding. -/
def headerBytes (chunk_count chunk_size : Nat) : List Nat :=
  let raw := chunkLit ++ decBytes chunk_count ++ [58] ++ decBytes chunk_size ++ [10]
  raw ++ List.replicate (16 - raw.length) 0

/-- `math.ceil(size / num_chunks)` with `num_chunks = 5` (line 174). -/
def chunkSizeOf (L : Nat) : Nat := (L + 4) / 5

/-- The sender's chunking loop (src/virtual_network.py lines 177-199),
parameterized by the suffix of the file not yet read: the loop guard
`sent_bytes < size` is the guard that this suffix is nonempty, the guard
`chunk_count < num_chunks` is tracked by the `remaining` budget
(`num_chunks - chunk_count`), and `f.read(min(chunk_size, size -
sent_bytes))` is `rest.take chunk_size`.  Each element of the result
pairs a sequence number with the chunk payload read for it. -/
def sendLoop (rest : List Nat) (chunk_count remaining chunk_size : Nat) :
    List (Nat × List Nat) :=
  match remaining with
  | 0 => []
  | r + 1 =>
    match rest with
    | [] => []
    | _ :: _ =>
      let chunk := rest.take chunk_size
      if chunk.isEmpty then []
      else (chunk_count + 1, chunk) :: sendLoop (rest.drop chunk_size) (chunk_count + 1) r chunk_size

/-- The sequence of (sequence number, payload) chunks that
`VirtualNetwork.send_file` transmits for a file whose bytes are
`content` (the source streams `b"\0" * size`; the loop itself is
indifferent to the byte values). -/
def sentChunks (content : List Nat) : List (Nat × List Nat) :=
  sendLoop content 0 5 (chunkSizeOf content.length)

/-- The raw framed bytes put on the wire for each chunk: the NUL-padded
header followed by the payload (line 189). -/
def sentFrames (content : List Nat) : List (List Nat) :=
  (sentChunks content).map fun pr => headerBytes pr.1 pr.2.length ++ pr.2

/-- Strip an expected literal byte prefix, returning the remainder. -/
def stripLit : List Nat → List Nat → Option (List Nat)
  | [], rest => some rest
  | _ :: _, [] => none
  | e :: es, b :: bs => if b = e then stripLit es bs else none

/-- ASCII decimal digit test, the bytes regex class `\d`. -/
def isDigitByte (b : Nat) : Bool := 48 ≤ b && b ≤ 57

/-- Longest digit prefix and the remainder, the greedy match of `\d+`
(no backtracking is ever needed because the following literal bytes are
not digits). -/
def takeDigits : List Nat → List Nat × List Nat
  | [] => ([], [])
  | b :: t =>
    if isDigitByte b then
      let p := takeDigits t
      (b :: p.1, p.2)
    else ([], b :: t)

/-- Numeric value of a digit-byte string, Python `int(...)`. -/
def digitsVal (ds : List Nat) : Nat :=
  ds.foldl (fun acc b => acc * 10 + (b - 48)) 0

/-- The receiver's header parse (src/virtual_network.py lines 30-38): the
anchored bytes regex CHUNK:(num):(size) followed by a newline, returning
the chunk number, the declared size, and everything after the newline
(`data[match.end():]`, which the source takes as the payload). -/
def parseHeader (data : List Nat) : Option (Nat × Nat × List Nat) :=
  match stripLit chunkLit data with
  | none => none
  | some r1 =>
    let d1 := takeDigits r1
    if d1.1.isEmpty then none
    else
      match d1.2 with
      | 58 :: r2 =>
        let d2 := takeDigits r2
        if d2.1.isEmpty then none
        else
          match d2.2 with
          | 10 :: payload => some (digitsVal d1.1, digitsVal d2.1, payload)
          | _ => none
      | _ => none

/-- Per-frame outcome of `CustomFTPHandler.on_file_received`, one
constructor per exit path of the method. -/
inductive RecvOutcome where
  | metadataSkipped
  | invalidHeader
  | sizeMismatch
  | filenameMismatch
  | outOfOrder
  | accepted
  | finalized
deriving DecidableEq

/-- Receiver-side state: the session fields the handler instance carries
across calls (`current_filename`, `expected_chunks`, `received_chunks`
and the accumulated bytes of the temp file), together with the observable
node state the handler mutates on finalization (`disk` is the node's
`virtual_disk`, `stored` maps each finalized filename to the bytes
materialized for it by the rename). -/
structure Receiver where
  current_filename : Option String
  expected_chunks : Nat
  received_chunks : Nat
  temp : List Nat
  disk : Disk
  stored : List (String × List Nat)
deriving DecidableEq

/-- A freshly constructed handler (src/virtual_network.py lines 13-18)
attached to a node with an empty disk. -/
def initReceiver : Receiver :=
  { current_filename := none, expected_chunks := 5, received_chunks := 0,
    temp := [], disk := [], stored := [] }

/-- Finalization step (src/virtual_network.py lines 67-76): when all
expected chunks are in, rename the temp buffer to the visible object,
record its size in the virtual disk, persist, and clear the session. -/
def finalizeIfComplete (h : Receiver) (filename : String) : Receiver × RecvOutcome × Bool :=
  if h.received_chunks = h.expected_chunks then
    ({ h with disk := setA h.disk filename (Int.ofNat h.temp.length),
              stored := setA h.stored filename h.temp,
              current_filename := none, received_chunks := 0, temp := [] },
     .finalized, true)
  else (h, .accepted, true)

/-- `CustomFTPHandler.on_file_received` (src/virtual_network.py lines
20-79) on a received object whose basename is `filename` and whose raw
bytes are `data`.  The final `Bool` records whether the
`os.remove(file_path)` at the end of the method was reached, i.e.
whether the raw incoming object was removed from the staging area. -/
def on_file_received (h : Receiver) (filename : String) (data : List Nat) :
    Receiver × RecvOutcome × Bool :=
  if filename.endsWith "disk_metadata.json" then (h, .metadataSkipped, false)
  else
    match parseHeader data with
    | none => (h, .invalidHeader, false)
    | some (chunk_number, chunk_size, payload) =>
      if payload.length ≠ chunk_size then (h, .sizeMismatch, false)
      else if chunk_number = 1 then
        finalizeIfComplete
          { h with current_filename := some filename, received_chunks := 1,
                   temp := payload } filename
      else if some filename ≠ h.current_filename then (h, .filenameMismatch, false)
      else if chunk_number ≠ h.received_chunks + 1 then (h, .outOfOrder, false)
      else
        finalizeIfComplete
          { h with received_chunks := h.received_chunks + 1,
                   temp := h.temp ++ payload } filename

/-- Deliver a list of raw framed objects to the receiver in order,
collecting the outcome and removal flag of each delivery. -/
def deliverAll (h : Receiver) (filename : String) :
    List (List Nat) → Receiver × List (RecvOutcome × Bool)
  | [] => (h, [])
  | d :: t =>
    let s := on_file_received h filename d
    let r := deliverAll s.1 filename t
    (r.1, (s.2.1, s.2.2) :: r.2)

/-- Fixed capacity of a network node: `total_storage = 1024*1024*1024`
bytes (src/virtual_node.py line 11), also the hardcoded target capacity
of the sender-side admission query (src/virtual_network.py line 148). -/
def totalStorageVN : Int := 1024 * 1024 * 1024

/-- The three operations that can mutate a running VirtualNode's virtual
disk: `touch`, `trunc`, and the transfer finalization performed by
`CustomFTPHandler.on_file_received`.  A finalized size is the byte count
of a materialized file, hence a `Nat`. -/
inductive DiskOp where
  | touch (f : String) (s : Int)
  | trunc (f : String) (s : Int)
  | finalize (f : String) (s : Nat)

/-- Disk-level semantics of one operation on a running VirtualNode; an
operation whose guard fails returns an error and leaves the disk
unchanged.  `touch` and `trunc` carry exactly the guards of
src/virtual_node.py lines 98-112 and 121-133.  `finalize` models the
disk update of src/virtual_network.py line 71; the transfer it completes
was admitted by the sender-side `check_target_storage` query of line 148
(`used + size <= 1024*1024*1024`), and under sequential operation the
listing the sender sums covers at least the target's recorded files, so
an accepted finalize satisfies `used + s <= totalStorageVN`. -/
def applyDiskOp (d : Disk) : DiskOp → Disk
  | .touch f s =>
    if s < 0 then d
    else if containsA d f then d
    else if diskUsed d + s * (1024 * 1024) ≤ totalStorageVN then setA d f s else d
  | .trunc f s =>
    if s < 0 then d
    else
      match lookupA d f with
      | none => d
      | some old => if diskUsed d + (s - old) ≤ totalStorageVN then setA d f s else d
  | .finalize f s =>
    if diskUsed d + (s : Int) ≤ totalStorageVN then setA d f (s : Int) else d

/-- A sequence of disk operations applied in order. -/
def runOps (d : Disk) (ops : List DiskOp) : Disk := ops.foldl applyDiskOp d

theorem lookupA_mem {α : Type} {d : List (String × α)} {f : String} {v : α}
    (h : lookupA d f = some v) : (f, v) ∈ d := by
  induction d with
  | nil => simp [lookupA] at h
  | cons hd t ih =>
    obtain ⟨g, w⟩ := hd
    by_cases hg : g = f
    · subst hg
      simp [lookupA] at h
      simp [h]
    · simp [lookupA, hg] at h
      exact List.mem_cons_of_mem _ (ih h)

theorem mem_setA {α : Type} {d : List (String × α)} {f : String} {v : α}
    {pr : String × α} (h : pr ∈ setA d f v) : pr = (f, v) ∨ pr ∈ d := by
  induction d with
  | nil => simpa [setA] using h
  | cons hd t ih =>
    obtain ⟨g, w⟩ := hd
    by_cases hg : g = f
    · subst hg
      simp only [setA, if_pos rfl] at h
      rcases List.mem_cons.mp h with h1 | h1
      · exact Or.inl h1
      · exact Or.inr (List.mem_cons_of_mem _ h1)
    · simp only [setA, if_neg hg] at h
      rcases List.mem_cons.mp h with h1 | h1
      · exact Or.inr (h1 ▸ List.mem_cons_self _ _)
      · rcases ih h1 with h2 | h2
        · exact Or.inl h2
        · exact Or.inr (List.mem_cons_of_mem _ h2)

theorem diskUsed_setA (d : Disk) (f : String) (v : Int) :
    diskUsed (setA d f v) = diskUsed d + v - ((lookupA d f).getD 0) := by
  induction d with
  | nil => simp [setA, diskUsed, lookupA]
  | cons hd t ih =>
    obtain ⟨g, w⟩ := hd
    by_cases hg : g = f
    · subst hg
      simp [setA, diskUsed, lookupA]
      ring
    · simp [setA, diskUsed, lookupA, hg] at *
      omega

/-- The state invariant maintained by every disk operation: the recorded
sizes fit in the capacity and every recorded size is non-negative. -/
def DiskInv (d : Disk) : Prop :=
  diskUsed d ≤ totalStorageVN ∧ ∀ pr ∈ d, 0 ≤ pr.2

theorem applyDiskOp_inv {d : Disk} (h : DiskInv d) (op : DiskOp) :
    DiskInv (applyDiskOp d op) := by
  obtain ⟨hcap, hpos⟩ := h
  have hmem : ∀ (f : String) (s : Int), 0 ≤ s → ∀ pr ∈ setA d f s, 0 ≤ pr.2 := by
    intro f s hs pr hpr
    rcases mem_setA hpr with h1 | h1
    · rw [h1]
      exact hs
    · exact hpos pr h1
  cases op with
  | touch f s =>
    simp only [applyDiskOp]
    split
    · exact ⟨hcap, hpos⟩
    · split
      · exact ⟨hcap, hpos⟩
      · split
        · rename_i hneg habs hadm
          have hs : 0 ≤ s := by omega
          constructor
          · rw [diskUsed_setA]
            have hlk : lookupA d f = none := by
              simp [containsA] at habs
              exact Option.eq_none_of_isNone (by simp [habs])
            rw [hlk]
            have hss : s ≤ s * (1024 * 1024) :=
              le_mul_of_one_le_right hs (by norm_num)
            simp only [Option.getD_none]
            omega
          · exact hmem f s hs
        · exact ⟨hcap, hpos⟩
  | trunc f s =>
    simp only [applyDiskOp]
    split
    · exact ⟨hcap, hpos⟩
    · split
      · exact ⟨hcap, hpos⟩
      · rename_i hneg old hlk
        split
        · rename_i hadm
          have hs : 0 ≤ s := by omega
          constructor
          · rw [diskUsed_setA, hlk]
            simp only [Option.getD_some]
            omega
          · exact hmem f s hs
        · exact ⟨hcap, hpos⟩
  | finalize f s =>
    simp only [applyDiskOp]
    split
    · rename_i hadm
      constructor
      · rw [diskUsed_setA]
        have hold : 0 ≤ (lookupA d f).getD 0 := by
          cases hl : lookupA d f with
          | none => simp
          | some old =>
            simp only [Option.getD_some]
            exact hpos _ (lookupA_mem hl)
        omega
      · exact hmem f (s : Int) (by positivity)
    · exact ⟨hcap, hpos⟩

theorem runOps_inv {d : Disk} (h : DiskInv d) (ops : List DiskOp) :
    DiskInv (runOps d ops) := by
  induction ops generalizing d with
  | nil => exact h
  | cons op t ih => exact ih (applyDiskOp_inv h op)

theorem diskInv_nil : DiskInv [] := by
  constructor
  · norm_num [diskUsed, totalStorageVN]
  · intro pr hpr
    simp at hpr

/-- The payload sequence produced by the sender loop, without the
sequence numbering: the successive `cs`-byte slices of the remaining
input, with a budget of `k` more chunks. -/
def chunkSplit (rest : List Nat) (k cs : Nat) : List (List Nat) :=
  match k with
  | 0 => []
  | r + 1 =>
    match rest with
    | [] => []
    | _ :: _ =>
      let chunk := rest.take cs
      if chunk.isEmpty then [] else chunk :: chunkSplit (rest.drop cs) r cs

theorem sendLoop_snd (k : Nat) :
    ∀ (rest : List Nat) (c cs : Nat),
      (sendLoop rest c k cs).map Prod.snd = chunkSplit rest k cs := by
  induction k with
  | zero => intro rest c cs; rfl
  | succ r ih =>
    intro rest c cs
    cases rest with
    | nil => rfl
    | cons b t =>
      simp only [sendLoop, chunkSplit]
      split
      · rfl
      · simp only [List.map_cons]
        rw [ih]

theorem sendLoop_length_le (k : Nat) :
    ∀ (rest : List Nat) (c cs : Nat), (sendLoop rest c k cs).length ≤ k := by
  induction k with
  | zero => intro rest c cs; simp [sendLoop]
  | succ r ih =>
    intro rest c cs
    cases rest with
    | nil => simp [sendLoop]
    | cons b t =>
      simp only [sendLoop]
      split
      · simp
      · simpa using ih _ _ _

theorem sendLoop_fst (k : Nat) :
    ∀ (rest : List Nat) (c cs : Nat),
      (sendLoop rest c k cs).map Prod.fst =
        List.range' (c + 1) (sendLoop rest c k cs).length := by
  induction k with
  | zero => intro rest c cs; rfl
  | succ r ih =>
    intro rest c cs
    cases rest with
    | nil => rfl
    | cons b t =>
      simp only [sendLoop]
      split
      · rfl
      · simp only [List.map_cons, List.length_cons, List.range'_succ]
        rw [ih]

theorem chunkSplit_nil (k cs : Nat) : chunkSplit [] k cs = [] := by
  cases k <;> rfl


theorem chunkSplit_flatten (k : Nat) :
    ∀ (rest : List Nat) (cs : Nat), 0 < cs → rest.length ≤ k * cs →
      (chunkSplit rest k cs).flatten = rest := by
  induction k with
  | zero =>
    intro rest cs hcs hlen
    simp at hlen
    simp [hlen, chunkSplit]
  | succ r ih =>
    intro rest cs hcs hlen
    cases rest with
    | nil => simp [chunkSplit]
    | cons b t =>
      simp only [chunkSplit]
      have hne : (((b :: t).take cs).isEmpty) = false := by
        cases cs with
        | zero => omega
        | succ m => simp [List.take]
      rw [hne]
      simp only [Bool.false_eq_true, if_false, List.flatten_cons]
      have hdrop : ((b :: t).drop cs).length ≤ r * cs := by
        rw [List.length_drop]
        rw [Nat.succ_mul] at hlen
        omega
      rw [ih _ _ hcs hdrop]
      exact List.take_append_drop cs (b :: t)

/-- Number of chunks the chunking rule yields for `L` input bytes and
chunk size `cs`: `ceil(L / cs)` written with truncating division. -/
def numPieces (L cs : Nat) : Nat := if L = 0 then 0 else (L - 1) / cs + 1

theorem numPieces_step {L cs : Nat} (hcs : 0 < cs) (hL : 0 < L) :
    numPieces (L - cs) cs + 1 = numPieces L cs := by
  by_cases hsm : L ≤ cs
  · have h0 : L - cs = 0 := by omega
    rw [h0]
    simp only [numPieces, if_pos rfl, if_neg (by omega : ¬ L = 0)]
    rw [Nat.div_eq_of_lt (by omega : L - 1 < cs)]
    simp
  · have h1 : ¬ (L - cs = 0) := by omega
    simp only [numPieces, if_neg h1, if_neg (by omega : ¬ L = 0)]
    have heq : L - 1 = (L - cs - 1) + cs := by omega
    rw [heq, Nat.add_div_right _ hcs]

theorem chunkSplit_length (k : Nat) :
    ∀ (rest : List Nat) (cs : Nat), 0 < cs → rest.length ≤ k * cs →
      (chunkSplit rest k cs).length = numPieces rest.length cs := by
  induction k with
  | zero =>
    intro rest cs hcs hlen
    simp at hlen
    simp [hlen, chunkSplit, numPieces]
  | succ r ih =>
    intro rest cs hcs hlen
    cases rest with
    | nil => simp [chunkSplit, numPieces]
    | cons b t =>
      simp only [chunkSplit]
      have hne : (((b :: t).take cs).isEmpty) = false := by
        cases cs with
        | zero => omega
        | succ m => simp [List.take]
      rw [hne]
      simp only [Bool.false_eq_true, if_false, List.length_cons]
      have hdrop : ((b :: t).drop cs).length ≤ r * cs := by
        rw [List.length_drop]
        rw [Nat.succ_mul] at hlen
        omega
      rw [ih _ _ hcs hdrop, List.length_drop]
      exact numPieces_step hcs (by simp)
theorem chunkSplit_size_le (k : Nat) :
    ∀ (rest : List Nat) (cs : Nat) (chunk : List Nat),
      chunk ∈ chunkSplit rest k cs → chunk.length ≤ cs := by
  induction k with
  | zero => intro rest cs chunk h; simp [chunkSplit] at h
  | succ r ih =>
    intro rest cs chunk h
    cases rest with
    | nil => simp [chunkSplit] at h
    | cons b t =>
      simp only [chunkSplit] at h
      split at h
      · simp at h
      · rcases List.mem_cons.mp h with h1 | h1
        · rw [h1, List.length_take]
          exact min_le_left _ _
        · exact ih _ _ _ h1

theorem chunkSplit_dropLast_size (k : Nat) :
    ∀ (rest : List Nat) (cs : Nat) (chunk : List Nat), 0 < cs →
      chunk ∈ (chunkSplit rest k cs).dropLast → chunk.length = cs := by
  induction k with
  | zero => intro rest cs chunk hcs h; simp [chunkSplit] at h
  | succ r ih =>
    intro rest cs chunk hcs h
    cases rest with
    | nil => simp [chunkSplit] at h
    | cons b t =>
      simp only [chunkSplit] at h
      have hne : (((b :: t).take cs).isEmpty) = false := by
        cases cs with
        | zero => omega
        | succ m => simp [List.take]
      rw [hne] at h
      simp only [Bool.false_eq_true, if_false] at h
      cases htail : chunkSplit ((b :: t).drop cs) r cs with
      | nil =>
        rw [htail] at h
        simp at h
      | cons c2 t2 =>
        rw [htail] at h
        rw [List.dropLast_cons_of_ne_nil (by simp)] at h
        rcases List.mem_cons.mp h with h1 | h1
        · have hlong : cs < (b :: t).length := by
            by_contra hc
            push_neg at hc
            have : (b :: t).drop cs = [] := List.drop_eq_nil_of_le hc
            rw [this, chunkSplit_nil] at htail
            simp at htail
          rw [h1, List.length_take]
          omega
        · rw [← htail] at h1
          exact ih _ _ _ hcs h1

/-- Concrete raw frames for receiver-level scenarios, built directly at
the byte level (headers "CHUNK:1:2", "CHUNK:3:1", "CHUNK:2:1", each
followed by a newline and exactly the declared number of payload
bytes, so each frame passes the header parse and the length check). -/
def frameSeq1 : List Nat := [67, 72, 85, 78, 75, 58, 49, 58, 50, 10, 7, 7]

def frameSeq3 : List Nat := [67, 72, 85, 78, 75, 58, 51, 58, 49, 10, 9]

def frameSeq2 : List Nat := [67, 72, 85, 78, 75, 58, 50, 58, 49, 10, 8]

/-- Claim C1: the claim states that for every byte sequence of length L,
delivering the sender's framed chunks in order makes the receiver
finalize an object byte-identical to the original.  The code violates
this: the sender NUL-pads each header to 16 bytes (line 187) but the
receiver takes everything after the header's newline as payload
(line 38), so for the spec's own 23-byte scenario every frame carries a
parsed payload of 11 bytes (6 padding NULs plus the 5- or 3-byte chunk)
against a declared size of 5 (or 3), every frame is discarded as a size
mismatch, no session is ever created, and nothing is finalized. -/
theorem C1_receiver_never_finalizes :
    ((sentChunks (List.replicate 23 0)).map fun pr => (pr.1, pr.2.length)) =
      [(1, 5), (2, 5), (3, 5), (4, 5), (5, 3)] ∧
    (deliverAll initReceiver "a.bin" (sentFrames (List.replicate 23 0))).2 =
      List.replicate 5 (RecvOutcome.sizeMismatch, false) ∧
    (deliverAll initReceiver "a.bin" (sentFrames (List.replicate 23 0))).1 =
      initReceiver := by
  refine ⟨by decide, by decide, by decide⟩

/-- Claim C2 (counterexample): with a session open for "f.bin" expecting
sequence 2, delivering the out-of-order frame with sequence 3 leaves the
session completely untouched (the handler only logs and returns, lines
58-60), and the true next frame with sequence 2 is then accepted — the
session is not aborted and the transfer does not have to restart. -/
theorem C2_out_of_order_counterexample :
    (deliverAll initReceiver "f.bin" [frameSeq1, frameSeq3]).1 =
      { current_filename := some "f.bin", expected_chunks := 5,
        received_chunks := 1, temp := [7, 7], disk := [], stored := [] } ∧
    (deliverAll initReceiver "f.bin" [frameSeq1, frameSeq3, frameSeq2]).2 =
      [(RecvOutcome.accepted, true), (RecvOutcome.outOfOrder, false),
       (RecvOutcome.accepted, true)] ∧
    (deliverAll initReceiver "f.bin" [frameSeq1, frameSeq3, frameSeq2]).1.received_chunks
      = 2 := by
  refine ⟨by decide, by decide, by decide⟩

/-- Claim C2 (amended): delivering a well-formed frame whose sequence
number is greater than 1 but is not the expected next sequence for the
session's filename makes the receiver discard that frame only: the
session state is returned unchanged (and the frame object is not
removed), so a subsequently delivered frame carrying the expected next
sequence number is still accepted (folded into the session, or
finalizing it when it is the last expected chunk); the transfer does not
restart. -/
theorem C2_session_survives (h : Receiver) (fn : String) (data : List Nat)
    (c sz : Nat) (payload : List Nat)
    (hm : fn.endsWith "disk_metadata.json" = false)
    (hp : parseHeader data = some (c, sz, payload))
    (hlen : payload.length = sz)
    (hc : 1 < c)
    (hcur : h.current_filename = some fn)
    (hne : c ≠ h.received_chunks + 1) :
    on_file_received h fn data = (h, .outOfOrder, false) ∧
    ∀ (data2 : List Nat) (c2 sz2 : Nat) (payload2 : List Nat),
      parseHeader data2 = some (c2, sz2, payload2) → payload2.length = sz2 →
      1 < c2 → c2 = h.received_chunks + 1 →
      ((on_file_received h fn data2).2.1 = RecvOutcome.accepted ∨
       (on_file_received h fn data2).2.1 = RecvOutcome.finalized) := by
  constructor
  · simp only [on_file_received, hm, Bool.false_eq_true, if_false, hp, hlen]
    rw [if_neg (by omega : ¬ sz ≠ sz), if_neg (by omega : ¬ c = 1),
      if_neg (by rw [hcur]; simp : ¬ some fn ≠ h.current_filename), if_pos hne]
  · intro data2 c2 sz2 payload2 hp2 hlen2 hc2 hexp
    simp only [on_file_received, hm, Bool.false_eq_true, if_false, hp2, hlen2]
    rw [if_neg (by omega : ¬ sz2 ≠ sz2), if_neg (by omega : ¬ c2 = 1),
      if_neg (by rw [hcur]; simp : ¬ some fn ≠ h.current_filename),
      if_neg (by omega : ¬ c2 ≠ h.received_chunks + 1)]
    unfold finalizeIfComplete
    split
    · right; rfl
    · left; rfl

/-- Claim C2 (witness): a session expecting sequence 2 receives the
out-of-order sequence-3 frame; the theorem applies with every hypothesis
discharged by evaluation. -/
theorem C2_session_survives_witness :
    on_file_received
      { current_filename := some "f.bin", expected_chunks := 5,
        received_chunks := 1, temp := [7, 7], disk := [], stored := [] }
      "f.bin" frameSeq3 =
    ({ current_filename := some "f.bin", expected_chunks := 5,
       received_chunks := 1, temp := [7, 7], disk := [], stored := [] },
     .outOfOrder, false) :=
  (C2_session_survives _ "f.bin" frameSeq3 3 1 [9] (by decide) (by decide)
    (by decide) (by decide) rfl (by decide)).1

/-- Claim C3 (counterexample): for a file of 0 bytes the sender's loop
(guarded by `sent_bytes < size`) transmits no chunk at all, not the
single empty sequence-1 chunk the claim requires; and for a file of 7
bytes it transmits 4 chunks (of sizes 2,2,2,1), not exactly 5. -/
theorem C3_chunk_count_counterexample :
    sentChunks ([] : List Nat) = [] ∧
    (sentChunks ([] : List Nat)).length ≠ 1 ∧
    (sentChunks (List.replicate 7 0)).length = 4 ∧
    (sentChunks (List.replicate 7 0)).length ≠ 5 := by
  refine ⟨by decide, by decide, by decide, by decide⟩

/-- Claim C3 (amended): with `chunk_size = ceil(total_size / 5)`, the
sender transmits `ceil(total_size / chunk_size)` chunks — at most 5, and
possibly fewer — numbered consecutively from sequence 1, whose payloads
concatenate to exactly the file's bytes; every chunk has `chunk_size`
bytes except a possibly smaller final chunk; and when `total_size == 0`
no chunk is transmitted at all. -/
theorem C3_chunking_amended (content : List Nat) :
    (sentChunks content).length = numPieces content.length (chunkSizeOf content.length) ∧
    (sentChunks content).length ≤ 5 ∧
    (content.length = 0 → sentChunks content = []) ∧
    ((sentChunks content).map Prod.snd).flatten = content ∧
    (sentChunks content).map Prod.fst = List.range' 1 (sentChunks content).length ∧
    (∀ chunk ∈ ((sentChunks content).map Prod.snd).dropLast,
      chunk.length = chunkSizeOf content.length) ∧
    (∀ pr ∈ sentChunks content, pr.2.length ≤ chunkSizeOf content.length) := by
  by_cases hL : content.length = 0
  · have hnil : content = [] := List.eq_nil_of_length_eq_zero hL
    subst hnil
    exact ⟨by decide, by decide, fun _ => by decide, by decide, by decide,
      by decide, by decide⟩
  · have hcs : 0 < chunkSizeOf content.length := by
      simp only [chunkSizeOf]
      omega
    have hbound : content.length ≤ 5 * chunkSizeOf content.length := by
      simp only [chunkSizeOf]
      omega
    have hsnd : (sentChunks content).map Prod.snd =
        chunkSplit content 5 (chunkSizeOf content.length) :=
      sendLoop_snd 5 content 0 _
    have hlencs : (sentChunks content).length =
        numPieces content.length (chunkSizeOf content.length) := by
      have := congrArg List.length hsnd
      simpa [chunkSplit_length 5 content _ hcs hbound] using this
    refine ⟨hlencs, sendLoop_length_le 5 content 0 _, fun h0 => absurd h0 hL,
      ?_, sendLoop_fst 5 content 0 _, ?_, ?_⟩
    · rw [hsnd]
      exact chunkSplit_flatten 5 content _ hcs hbound
    · intro chunk hchunk
      rw [hsnd] at hchunk
      exact chunkSplit_dropLast_size 5 content _ chunk hcs hchunk
    · intro pr hpr
      have hmem : pr.2 ∈ (sentChunks content).map Prod.snd :=
        List.mem_map_of_mem Prod.snd hpr
      rw [hsnd] at hmem
      exact chunkSplit_size_le 5 content _ pr.2 hmem

/-- Claim C3 (witness): the theorem applied to the spec's 23-byte file:
its payloads rebuild the 23 bytes and the chunk count matches the rule. -/
theorem C3_chunking_amended_witness :
    ((sentChunks (List.replicate 23 0)).map Prod.snd).flatten =
      List.replicate 23 0 ∧
    (sentChunks (List.replicate 23 0)).length = 5 := by
  have h := C3_chunking_amended (List.replicate 23 0)
  exact ⟨h.2.2.2.1, by
    have h1 := h.1
    simpa using h1⟩

/-- A running VirtualNode with an empty disk, the constructor state of
src/virtual_node.py (capacity 1024*1024*1024 bytes). -/
def vnodeEmpty : VirtualNode :=
  { name := "node1", ip_address := "192.168.1.1",
    total_storage := 1024 * 1024 * 1024, virtual_disk := [], memory := [],
    is_running := true, metadata := [] }

/-- A running VirtualNode3 with an empty disk, the constructor state of
src/node3.py (capacity 100*1024*1024 bytes). -/
def node3Empty : VirtualNode3 :=
  { name := "node3", total_storage := 100 * 1024 * 1024, virtual_disk := [],
    memory := [], is_running := true, metadata := [] }

/-- Claim C5: the claim states that `touch` admission-controls exactly
`size` bytes (`used + size <= capacity`).  `VirtualNode3.touch` does,
and the claim's own scenario holds there (last two conjuncts); but
`VirtualNode.touch` checks `used + size * 1024 * 1024 <= capacity` while
writing and recording `size` bytes, so on an empty 1 GiB node a request
for 2048 bytes — which fits by the claim's rule (first conjunct) — is
rejected with a CapacityError and the disk is left unchanged (second
conjunct): the admission check uses a different unit than the entry it
guards. -/
theorem C5_touch_admission_unit_bug :
    diskUsed vnodeEmpty.virtual_disk + 2048 ≤ vnodeEmpty.total_storage ∧
    VirtualNode.touch vnodeEmpty "a.bin" (some 2048) = (Res.capacity, vnodeEmpty) ∧
    VirtualNode3.touch node3Empty "a.bin" (some (100 * 1024 * 1024 + 1)) =
      (Res.capacity, node3Empty) ∧
    VirtualNode3.touch node3Empty "a.bin" (some (100 * 1024 * 1024)) =
      (Res.created,
        { node3Empty with virtual_disk := [("a.bin", 100 * 1024 * 1024)],
                          metadata := [("a.bin", 100 * 1024 * 1024)] }) := by
  refine ⟨by decide, by decide, by decide, by decide⟩

/-- Claim C4: starting from an empty disk, after any sequence of
accepted touch, trunc and transfer-finalize operations (rejected
operations leave the disk unchanged, so every prefix of any operation
sequence is covered), the sum of the sizes recorded in the virtual disk
never exceeds the node's capacity. -/
theorem C4_capacity_invariant (ops : List DiskOp) :
    diskUsed (runOps [] ops) ≤ totalStorageVN :=
  (runOps_inv diskInv_nil ops).1

/-- Claim C4 (witness): a concrete mixed sequence of the three
operations keeps the disk within capacity. -/
theorem C4_capacity_invariant_witness :
    diskUsed (runOps []
      [DiskOp.touch "a.bin" 1000, DiskOp.trunc "a.bin" 5000,
       DiskOp.finalize "b.bin" 23]) ≤ totalStorageVN :=
  C4_capacity_invariant
    [DiskOp.touch "a.bin" 1000, DiskOp.trunc "a.bin" 5000,
     DiskOp.finalize "b.bin" 23]

/-- A running VirtualNode3 that owns "a.bin" (1 byte), used as the
sender in the duplicate-rejection scenarios. -/
def node3Sender : VirtualNode3 :=
  { name := "node3", total_storage := 100 * 1024 * 1024,
    virtual_disk := [("a.bin", 1)], memory := [], is_running := true,
    metadata := [("a.bin", 1)] }

/-- A target disk that already lists "a.bin" and is completely full. -/
def targetFull : Disk := [("a.bin", 100 * 1024 * 1024)]

/-- A running VirtualNode holding "a.bin" with 1000 recorded bytes. -/
def vnodeWithFile : VirtualNode :=
  { vnodeEmpty with virtual_disk := [("a.bin", 1000)],
                    metadata := [("a.bin", 1000)] }

/-- A running VirtualNode3 holding "a.bin" with 1000 recorded bytes. -/
def node3WithFile : VirtualNode3 :=
  { node3Empty with virtual_disk := [("a.bin", 1000)],
                    metadata := [("a.bin", 1000)] }

/-- A directory listing of a protocol target that is completely full
with respect to the sender's hardcoded 1 GiB admission bound and that
already lists "a.bin". -/
def listingFull : List (String × Int) := [("a.bin", 1024 * 1024 * 1024)]

/-- Claim C6 (counterexample): the claim states that `send` to a target
that already lists the filename returns a DuplicateError.  But the
source checks target capacity before checking for duplicates
(src/node3.py lines 75-83, and likewise src/virtual_network.py lines
148-167), so a send to a full target that already holds the file
returns the capacity error, not the duplicate error. -/
theorem C6_duplicate_counterexample :
    listingFull.any (fun pr => pr.1 = "a.bin") = true ∧
    (VirtualNode.send vnodeWithFile "a.bin" "192.168.1.2" listingFull).1 =
      Res.capacity ∧
    (VirtualNode.send vnodeWithFile "a.bin" "192.168.1.2" listingFull).1 ≠
      Res.duplicate ∧
    containsA targetFull "a.bin" = true ∧
    (VirtualNode3.send node3Sender "a.bin" "node1" targetFull).1 = Res.capacity ∧
    (VirtualNode3.send node3Sender "a.bin" "node1" targetFull).1 ≠ Res.duplicate := by
  refine ⟨by decide, by decide, by decide, by decide, by decide, by decide⟩

/-- Claim C6 (amended): when the target already lists the filename and
every check that precedes the duplicate check passes, `send` returns
the DuplicateError and mutates neither the sender's state nor the
target's state, on both send implementations.  For the protocol sender
`VirtualNetwork.send_file` (reached through `VirtualNode.send`) the
preceding checks are: node running, target IP known, target distinct
from the sender's own IP, file present in the sender's disk, and the
listing-derived used storage admitting the file's size; the duplicate
path quits before any STOR is issued, so the sender node is returned
unchanged and nothing is written to the target.  For `VirtualNode3.send`
they are: node running, file present at the sender, target known and
distinct from the sender, and the target's disk image admitting the
size; the sender state and the target's disk image are returned
unchanged. -/
theorem C6_duplicate_amended (vn : VirtualNode) (n : VirtualNode3)
    (filename target_ip target : String) (listing : List (String × Int))
    (td : Disk)
    (g1 : vn.is_running = true)
    (g2 : knownIPs.contains target_ip = true)
    (g3 : ¬ vn.ip_address = target_ip)
    (g4 : containsA vn.virtual_disk filename = true)
    (g5 : listedUsed listing + (lookupA vn.virtual_disk filename).getD 0 ≤
      1024 * 1024 * 1024)
    (g6 : listing.any (fun pr => pr.1 = filename) = true)
    (h1 : n.is_running = true)
    (h2 : containsA n.virtual_disk filename = true)
    (h3 : containsA nodeMap target = true)
    (h4 : ¬ target = n.name)
    (h5 : diskUsed td + (lookupA n.virtual_disk filename).getD 0 ≤ n.total_storage)
    (h6 : containsA td filename = true) :
    VirtualNode.send vn filename target_ip listing = (Res.duplicate, vn) ∧
    VirtualNode3.send n filename target td = (Res.duplicate, n, td) := by
  constructor
  · have g2m : target_ip ∈ knownIPs := by simpa using g2
    have g5n : listedUsed listing + (lookupA vn.virtual_disk filename).getD 0 ≤
        1073741824 := by
      calc listedUsed listing + (lookupA vn.virtual_disk filename).getD 0 ≤
          1024 * 1024 * 1024 := g5
        _ = 1073741824 := by norm_num
    simp [VirtualNode.send, send_file, g1, g2m, g3, g4, g5n, g6]
  · simp [VirtualNode3.send, VirtualNode3.check_target_storage, h1, h2, h3, h4,
      h5, h6]

/-- Claim C6 (witness): the amended theorem applied to concrete senders
holding "a.bin" and non-full targets that already list "a.bin" (the
protocol target's listing also carries the metadata marker object,
which the admission sum excludes). -/
theorem C6_duplicate_amended_witness :
    VirtualNode.send vnodeWithFile "a.bin" "192.168.1.2"
      [("a.bin", 3), ("disk_metadata.json", 50)] = (Res.duplicate, vnodeWithFile) ∧
    VirtualNode3.send node3Sender "a.bin" "node1" [("a.bin", 3)] =
      (Res.duplicate, node3Sender, [("a.bin", 3)]) :=
  C6_duplicate_amended vnodeWithFile node3Sender "a.bin" "192.168.1.2" "node1"
    [("a.bin", 3), ("disk_metadata.json", 50)] [("a.bin", 3)]
    rfl rfl (by decide) rfl (by decide) (by decide)
    rfl rfl rfl (by decide) (by decide) rfl

/-- Claim C7: on a running node, touching a filename already present in
the virtual disk never changes the node's state — the recorded size of
the file, every other disk entry, the memory and the persisted metadata
are all left untouched, whatever the size argument (non-negative,
negative, or not an integer at all).  Proven for both node classes. -/
theorem C7_touch_idempotent (n : VirtualNode) (n3 : VirtualNode3) (f g : String)
    (s t : Option Int) (h1 : n.is_running = true)
    (h2 : containsA n.virtual_disk f = true) (h3 : n3.is_running = true)
    (h4 : containsA n3.virtual_disk g = true) :
    (VirtualNode.touch n f s).2 = n ∧ (VirtualNode3.touch n3 g t).2 = n3 := by
  constructor
  · cases s with
    | none => simp [VirtualNode.touch, h1]
    | some v =>
      by_cases hv : v < 0
      · simp [VirtualNode.touch, h1, hv]
      · simp [VirtualNode.touch, h1, hv, h2]
  · cases t with
    | none => simp [VirtualNode3.touch, h3]
    | some v =>
      by_cases hv : v < 0
      · simp [VirtualNode3.touch, h3, hv]
      · simp [VirtualNode3.touch, h3, hv, h4]

/-- Claim C7 (witness): the spec's scenario — touch an existing 1000-byte
file with size argument 5000; the state (hence the recorded size) is
unchanged on both node classes. -/
theorem C7_touch_idempotent_witness :
    (VirtualNode.touch vnodeWithFile "a.bin" (some 5000)).2 = vnodeWithFile ∧
    (VirtualNode3.touch node3WithFile "a.bin" (some 5000)).2 = node3WithFile :=
  C7_touch_idempotent vnodeWithFile node3WithFile "a.bin" "a.bin"
    (some 5000) (some 5000) rfl rfl rfl rfl

/-- Claim C8 (counterexample): the claim states that every incoming
frame object is removed from the staging area in every outcome.  In the
source the `os.remove(file_path)` sits at the end of
`on_file_received` and every discard path returns before reaching it:
a malformed-header frame and an out-of-order frame both leave the chunk
object behind (removal flag false). -/
theorem C8_removal_counterexample :
    (on_file_received initReceiver "a.bin" [0]).2.1 = RecvOutcome.invalidHeader ∧
    (on_file_received initReceiver "a.bin" [0]).2.2 = false ∧
    (on_file_received (deliverAll initReceiver "f.bin" [frameSeq1]).1
      "f.bin" frameSeq3).2.1 = RecvOutcome.outOfOrder ∧
    (on_file_received (deliverAll initReceiver "f.bin" [frameSeq1]).1
      "f.bin" frameSeq3).2.2 = false := by
  refine ⟨by decide, by decide, by decide, by decide⟩

/-- Claim C8 (amended): the incoming frame object is removed from the
staging area exactly when the frame is folded into the session buffer
(accepted or finalizing); on every discard outcome — metadata skip,
malformed header, payload-length mismatch, filename mismatch,
out-of-order sequence — the handler returns before the removal and the
chunk object remains behind. -/
theorem C8_removal_amended (h : Receiver) (fn : String) (data : List Nat) :
    ((on_file_received h fn data).2.2 = true) ↔
      ((on_file_received h fn data).2.1 = RecvOutcome.accepted ∨
       (on_file_received h fn data).2.1 = RecvOutcome.finalized) := by
  unfold on_file_received finalizeIfComplete
  repeat' split
  all_goals simp

/-- Claim C8 (witness): the amended theorem evaluated on a valid
sequence-1 frame, which is folded and removed. -/
theorem C8_removal_amended_witness :
    ((on_file_received initReceiver "f.bin" frameSeq1).2.2 = true) ↔
      ((on_file_received initReceiver "f.bin" frameSeq1).2.1 = RecvOutcome.accepted ∨
       (on_file_received initReceiver "f.bin" frameSeq1).2.1 = RecvOutcome.finalized) :=
  C8_removal_amended initReceiver "f.bin" frameSeq1

/-- Claim C9: on a stopped node every operation other than start and
stop — ls, touch, trunc, send, set_var, get_var, execute — returns the
NotRunningError result and leaves the node state (disk, memory,
metadata) and any would-be target disk completely unchanged, for both
node classes. -/
theorem C9_stopped_rejects_all (n : VirtualNode) (n3 : VirtualNode3)
    (f v instr tgt : String) (s : Option Int)
    (listing : List (String × Int)) (td : Disk)
    (h : n.is_running = false) (h3 : n3.is_running = false) :
    VirtualNode.ls n = .notRunning ∧
    VirtualNode.touch n f s = (.notRunning, n) ∧
    VirtualNode.trunc n f s = (.notRunning, n) ∧
    VirtualNode.send n f tgt listing = (.notRunning, n) ∧
    VirtualNode.set_var n v s = (.notRunning, n) ∧
    VirtualNode.get_var n v = .notRunning ∧
    VirtualNode.execute_instruction n instr = (.notRunning, n) ∧
    VirtualNode3.ls n3 = .notRunning ∧
    VirtualNode3.touch n3 f s = (.notRunning, n3) ∧
    VirtualNode3.trunc n3 f s = (.notRunning, n3) ∧
    VirtualNode3.send n3 f tgt td = (.notRunning, n3, td) ∧
    VirtualNode3.set_var n3 v s = (.notRunning, n3) ∧
    VirtualNode3.get_var n3 v = .notRunning ∧
    VirtualNode3.execute_instruction n3 instr = (.notRunning, n3) := by
  refine ⟨?_, ?_, ?_, ?_, ?_, ?_, ?_, ?_, ?_, ?_, ?_, ?_, ?_, ?_⟩ <;>
    simp [VirtualNode.ls, VirtualNode.touch, VirtualNode.trunc,
      VirtualNode.send, VirtualNode.set_var, VirtualNode.get_var,
      VirtualNode.execute_instruction, VirtualNode3.ls, VirtualNode3.touch,
      VirtualNode3.trunc, VirtualNode3.send, VirtualNode3.set_var,
      VirtualNode3.get_var, VirtualNode3.execute_instruction, h, h3]

/-- A stopped VirtualNode with an empty disk. -/
def vnodeStopped : VirtualNode := { vnodeEmpty with is_running := false }

/-- A stopped VirtualNode3 with an empty disk. -/
def node3Stopped : VirtualNode3 := { node3Empty with is_running := false }

/-- Claim C9 (witness): concrete stopped nodes reject touch and send. -/
theorem C9_stopped_rejects_all_witness :
    VirtualNode.touch vnodeStopped "a.bin" (some 5) = (.notRunning, vnodeStopped) ∧
    VirtualNode3.send node3Stopped "a.bin" "node1" [] = (.notRunning, node3Stopped, []) := by
  have h := C9_stopped_rejects_all vnodeStopped node3Stopped "a.bin" "x"
    "add a b" "node1" (some 5) [] [] rfl rfl
  exact ⟨h.2.1, h.2.2.2.2.2.2.2.2.2.2.1⟩

/-- Claim C10: on a running node, touch and trunc with a negative size
argument return the negative-size error before any admission check or
mutation — the returned node state (disk, memory, metadata) is exactly
the input state, on both node classes — and consequently no sequence of
disk operations starting from an empty disk ever records a negative
size for any entry. -/
theorem C10_negative_size_rejected (n : VirtualNode) (n3 : VirtualNode3)
    (f : String) (s : Int) (ops : List DiskOp) (h1 : n.is_running = true)
    (h2 : n3.is_running = true) (hs : s < 0) :
    VirtualNode.touch n f (some s) = (.negSize, n) ∧
    VirtualNode.trunc n f (some s) = (.negSize, n) ∧
    VirtualNode3.touch n3 f (some s) = (.negSize, n3) ∧
    VirtualNode3.trunc n3 f (some s) = (.negSize, n3) ∧
    ∀ pr ∈ runOps [] ops, 0 ≤ pr.2 := by
  refine ⟨?_, ?_, ?_, ?_, (runOps_inv diskInv_nil ops).2⟩ <;>
    simp [VirtualNode.touch, VirtualNode.trunc, VirtualNode3.touch,
      VirtualNode3.trunc, h1, h2, hs]

/-- Claim C10 (witness): a concrete negative touch and trunc are
rejected with the node state unchanged. -/
theorem C10_negative_size_rejected_witness :
    VirtualNode.touch vnodeEmpty "a.bin" (some (-1)) = (.negSize, vnodeEmpty) ∧
    VirtualNode3.trunc node3Empty "a.bin" (some (-1)) = (.negSize, node3Empty) := by
  have h := C10_negative_size_rejected vnodeEmpty node3Empty "a.bin" (-1)
    [DiskOp.touch "a.bin" 3] rfl rfl (by decide)
  exact ⟨h.1, h.2.2.2.1⟩
